import Mathlib

/-!
Verification development for the Randomized-Backgrounds repository
(`random_backgrounds.py` and `utils/frame_samplers.py`).

Modelling conventions:
* Python integers are `ℤ` (or `ℕ` for counts), Python floats are `ℚ`
  (float64 rounding is not modelled; all the quantities involved are exact
  small rationals, and `np.int32`/`float64` stay value-preserving on the
  realistic ranges the claims quantify over).
* The global numpy random draws are passed in explicitly: each
  `np.random.randint(0, m + 1)` becomes an `ℤ` argument constrained to
  `[0, m]`, each `np.random.rand()` becomes a `ℚ` argument constrained to
  `[0, 1)`.
* Python methods are translated in state-passing style: a query returns
  `result × state`, a mutator returns the new state.
* Frame data is a 2-D grid of natural-number pixel values (colour channels
  behave identically under every element-wise operation used here).
-/

/-- A decoded video frame: rows of pixel values. -/
abbrev Frame := List (List ℕ)

/-- numpy `np.round`: round half to even (banker's rounding). -/
def npRound (q : ℚ) : ℤ :=
  if q - ⌊q⌋ < 1 / 2 then ⌊q⌋
  else if 1 / 2 < q - ⌊q⌋ then ⌊q⌋ + 1
  else if ⌊q⌋ % 2 = 0 then ⌊q⌋ else ⌊q⌋ + 1

/-- numpy `np.linspace(start, stop, num)` with the default inclusive
endpoint: `num` evenly spaced values from `start` to `stop`;
`num = 1` yields `[start]`, `num = 0` yields the empty list. -/
def npLinspace (start stop : ℚ) (num : ℕ) : List ℚ :=
  if num = 0 then []
  else if num = 1 then [start]
  else (List.range num).map (fun (i : ℕ) => start + (i : ℚ) * (stop - start) / ((num - 1 : ℕ) : ℚ))

/-- numpy `np.uint8` cast of an integer value: wrap-around modulo 256
(a cast, not a clamp). -/
def toPixelU8 (z : ℤ) : ℕ := (z % 256).toNat

/-- numpy `np.median` of a 1-D collection: sort ascending; an odd-length
list takes the middle element, an even-length list averages the two middle
elements. (On the empty list numpy's result is NaN; this function returns
the junk value 0 there and the aggregator model tracks emptiness
separately.) -/
def medianOfList (xs : List ℕ) : ℚ :=
  let s := List.insertionSort (· ≤ ·) xs
  let n := s.length
  if n % 2 = 1 then ((s.getD (n / 2) 0 : ℕ) : ℚ)
  else (((s.getD (n / 2 - 1) 0 : ℕ) : ℚ) + ((s.getD (n / 2) 0 : ℕ) : ℚ)) / 2

/-- State of `Randomized_Frame_Sampler` (`utils/frame_samplers.py`):
the constructor arguments as stored by `__init__` plus the two derived
fields (crop rectangle and normalized sample positions). The Python
leading-underscore field names lose their underscore here. -/
structure Randomized_Frame_Sampler where
  video_width : ℤ
  video_height : ℤ
  max_x_shift : ℤ
  max_y_shift : ℤ
  min_duration : ℚ
  max_duration : ℚ
  num_samples : ℕ
  crop_y1y2x1x2 : ℤ × ℤ × ℤ × ℤ
  norm_sample_idxs : List ℚ

/-- `_get_randomized_crop_coords`, as a function of the stored fields and
of the two `np.random.randint(0, max_shift + 1)` draws (`crop_x1`,
`crop_y1`, each ranging over `[0, max_shift]`). -/
def get_randomized_crop_coords (video_width video_height max_x_shift max_y_shift crop_x1 crop_y1 : ℤ) : ℤ × ℤ × ℤ × ℤ :=
  let output_width := video_width - max_x_shift
  let output_height := video_height - max_y_shift
  let crop_x2 := crop_x1 + output_width
  let crop_y2 := crop_y1 + output_height
  (crop_y1, crop_y2, crop_x1, crop_x2)

/-- `_get_randomized_norm_sampling_indices`, as a function of the stored
duration bounds, the sample count, and the two `np.random.rand()` draws
(`rand_duration`, `rand_start`, each ranging over `[0, 1)`). -/
def get_randomized_norm_sampling_indices (min_duration max_duration : ℚ) (num_samples : ℕ) (rand_duration rand_start : ℚ) : List ℚ :=
  let norm_sample_duration := min_duration + (max_duration - min_duration) * rand_duration
  let earliest_norm_sample := (1 - norm_sample_duration) * rand_start
  let latest_norm_sample := earliest_norm_sample + norm_sample_duration
  npLinspace earliest_norm_sample latest_norm_sample num_samples

/-- `__init__`: store the inputs (the duration pair is sorted), then
pre-calculate the random crop rectangle and normalized sample positions. -/
def init_sampler (video_wh : ℤ × ℤ) (max_shift_xy : ℤ × ℤ) (min_max_sampling_duration : ℚ × ℚ) (num_samples : ℕ) (rand_x1 rand_y1 : ℤ) (rand_duration rand_start : ℚ) : Randomized_Frame_Sampler :=
  let min_duration := min min_max_sampling_duration.1 min_max_sampling_duration.2
  let max_duration := max min_max_sampling_duration.1 min_max_sampling_duration.2
  { video_width := video_wh.1
    video_height := video_wh.2
    max_x_shift := max_shift_xy.1
    max_y_shift := max_shift_xy.2
    min_duration := min_duration
    max_duration := max_duration
    num_samples := num_samples
    crop_y1y2x1x2 := get_randomized_crop_coords video_wh.1 video_wh.2 max_shift_xy.1 max_shift_xy.2 rand_x1 rand_y1
    norm_sample_idxs := get_randomized_norm_sampling_indices min_duration max_duration num_samples rand_duration rand_start }

/-- `disable_random_shift`: overwrite the crop rectangle with the centered
one. `int(max_shift / 2)` is Python truncating conversion of `max_shift/2`,
which for the non-negative shifts this class is used with equals the
integer division `max_shift / 2`. -/
def disable_random_shift (s : Randomized_Frame_Sampler) : Randomized_Frame_Sampler :=
  let output_width := s.video_width - s.max_x_shift
  let output_height := s.video_height - s.max_y_shift
  let crop_x1 := s.max_x_shift / 2
  let crop_y1 := s.max_y_shift / 2
  let crop_x2 := crop_x1 + output_width
  let crop_y2 := crop_y1 + output_height
  { s with crop_y1y2x1x2 := (crop_y1, crop_y2, crop_x1, crop_x2) }

/-- `disable_random_sample_timing`: set both duration bounds to 1.0 and
regenerate the sample positions (the regeneration draws fresh random
numbers, passed here as `rand_duration`, `rand_start`). -/
def disable_random_sample_timing (s : Randomized_Frame_Sampler) (rand_duration rand_start : ℚ) : Randomized_Frame_Sampler :=
  { s with
    min_duration := 1
    max_duration := 1
    norm_sample_idxs := get_randomized_norm_sampling_indices 1 1 s.num_samples rand_duration rand_start }

/-- Python slice `l[a:b]` for the non-negative bounds produced by the
sampler (negative Python indices never arise from a validly configured
sampler and are not modelled). -/
def pySlice {α : Type} (a b : ℤ) (l : List α) : List α :=
  (l.take b.toNat).drop a.toNat

/-- `crop`: `frame[crop_y1:crop_y2, crop_x1:crop_x2]`. -/
def crop (s : Randomized_Frame_Sampler) (frame : Frame) : Frame × Randomized_Frame_Sampler :=
  let r := s.crop_y1y2x1x2
  ((pySlice r.1 r.2.1 frame).map (fun row => pySlice r.2.2.1 r.2.2.2 row), s)

/-- `get_xy_shift`: offset of the actual crop's top-left corner relative
to a centered crop. -/
def get_xy_shift (s : Randomized_Frame_Sampler) : (ℤ × ℤ) × Randomized_Frame_Sampler :=
  let centered_x := s.max_x_shift / 2
  let centered_y := s.max_y_shift / 2
  let x_shift := s.crop_y1y2x1x2.2.2.1 - centered_x
  let y_shift := s.crop_y1y2x1x2.1 - centered_y
  ((x_shift, y_shift), s)

/-- `get_frame_indices`: `np.int32(np.round((total_video_frames - 1) *
norm_sample_idxs))`, element-wise. The `np.int32` cast is value-preserving
for every realistic frame count and is modelled as the identity. -/
def get_frame_indices (s : Randomized_Frame_Sampler) (total_video_frames : ℤ) : List ℤ × Randomized_Frame_Sampler :=
  (s.norm_sample_idxs.map (fun p => npRound (((total_video_frames - 1 : ℤ) : ℚ) * p)), s)

/-- Pixel values at row `r`, column `c` across a list of frames
(the stacked axis-0 column that `np.median(..., axis = 0)` reduces). -/
def pixel_column (frames : List Frame) (r c : ℕ) : List ℕ :=
  frames.map (fun f => (f.getD r []).getD c 0)

/-- The capture loop body of `random_backgrounds.py` for one sampler:
iterate the sampler's frame indices in order; a failed read
(`rec_frame` false, here `none`) is skipped after a printed warning;
a successful read is cropped and appended. -/
def capture_cropped_samples (s : Randomized_Frame_Sampler) (total_frames : ℤ) (read_frame : ℤ → Option Frame) : List Frame :=
  (get_frame_indices s total_frames).1.filterMap
    (fun i => (read_frame i).map (fun f => (crop s f).1))

/-- `np.uint8(np.round(np.median(cropped_samples_list, axis = 0)))`:
element-wise median across the collected frames (all of equal shape, taken
from the first), rounded half-to-even, cast to uint8. On an empty
collection `np.median` produces NaN (with only a RuntimeWarning) and the
uint8 cast of NaN is garbage; that undefined result is modelled as `none`.
The script itself does not branch on emptiness. -/
def median_background (cropped_samples : List Frame) : Option Frame :=
  match cropped_samples with
  | [] => none
  | f0 :: _ => some ((List.range f0.length).map (fun r =>
      (List.range ((f0.getD r []).length)).map (fun c =>
        toPixelU8 (npRound (medianOfList (pixel_column cropped_samples r c))))))

/-- One full variant of the capture loop: collect the cropped samples,
then reduce them to the median background. -/
def run_variant (s : Randomized_Frame_Sampler) (total_frames : ℤ) (read_frame : ℤ → Option Frame) : Option Frame :=
  median_background (capture_cropped_samples s total_frames read_frame)

/-- Clamp an integer to the valid pixel range `[0, 255]`. Spec-side
comparator for the reduction: the spec words the last step as clamping
where the code casts. -/
def clampPixel (z : ℤ) : ℕ := (max 0 (min 255 z)).toNat

/-- The reduction exactly as the spec words it: element-wise median,
rounded to the nearest integer pixel value and clamped to `[0, 255]`. -/
def median_background_clamped (cropped_samples : List Frame) : Option Frame :=
  match cropped_samples with
  | [] => none
  | f0 :: _ => some ((List.range f0.length).map (fun r =>
      (List.range ((f0.getD r []).length)).map (fun c =>
        clampPixel (npRound (medianOfList (pixel_column cropped_samples r c))))))

/-- Python `str.isspace`-style whitespace as used by `str.strip()` with no
argument (the six ASCII whitespace characters; the exotic unicode
whitespace Python also strips does not occur in the inputs considered). -/
def python_whitespace (c : Char) : Bool :=
  c = ' ' || c = '\t' || c = '\n' || c = '\r' || c = '\x0b' || c = '\x0c'

/-- Python `str.strip()`: remove leading and trailing whitespace. -/
def py_strip (cs : List Char) : List Char :=
  ((cs.dropWhile python_whitespace).reverse.dropWhile python_whitespace).reverse

/-- Python `str.lower()` (ASCII case mapping, which covers the inputs
considered). -/
def py_lower (cs : List Char) : List Char := cs.map Char.toLower

/-- Python `str.replace(" ", "_")`: replace every space character (and
only the space character, not other whitespace) by an underscore. -/
def py_replace_space (cs : List Char) : List Char :=
  cs.map (fun c => if c = ' ' then '_' else c)

/-- `os.path.basename` (POSIX): everything after the last `/`. -/
def os_basename (cs : List Char) : List Char :=
  (cs.reverse.takeWhile (fun c => c ≠ '/')).reverse

/-- Index of the last `.` of a (separator-free) file name, if any. -/
def last_dot_index (cs : List Char) : Option ℕ :=
  ((List.range cs.length).filter (fun i => cs.getD i ' ' = '.')).getLast?

/-- The root part of `os.path.splitext` on a bare file name: drop the
extension starting at the last `.`, except when every character before
that `.` is itself a `.` (so `.bashrc` keeps its name). -/
def splitext_root (cs : List Char) : List Char :=
  match last_dot_index cs with
  | none => cs
  | some d => if (List.range d).any (fun i => cs.getD i ' ' ≠ '.') then cs.take d else cs

/-- The sanitisation applied to the video name in the save block:
`video_name_only.strip().lower().replace(" ", "_")`. -/
def sanitize_video_name (cs : List Char) : List Char :=
  py_replace_space (py_lower (py_strip cs))

/-- `os.path.join` (POSIX, two components). -/
def os_path_join (a b : List Char) : List Char :=
  if b.getD 0 ' ' = '/' then b
  else if a = [] ∨ a.getLast? = some '/' then a ++ b
  else a ++ '/' :: b

/-- The per-variant file name `"({}, {}).png".format(x_shift, y_shift)`. -/
def bg_file_name (x_shift y_shift : ℤ) : List Char :=
  '(' :: (toString x_shift).toList ++ ',' :: ' ' :: (toString y_shift).toList ++ [')', '.', 'p', 'n', 'g']

/-- The save block of `random_backgrounds.py` (lines 160-170): basename of
the video source, extension stripped, sanitised, joined under the output
folder, with the shift-labelled file name appended.
(`os.path.abspath` of the output folder is environment-dependent path
normalisation; `output_folder` here stands for the already-absolute,
normalised folder it produces.) -/
def save_path (output_folder video_source : List Char) (x_shift y_shift : ℤ) : List Char :=
  let video_file_name := os_basename video_source
  let video_name_only := splitext_root video_file_name
  let sanitized := sanitize_video_name video_name_only
  let save_folder_path := os_path_join output_folder sanitized
  os_path_join save_folder_path (bg_file_name x_shift y_shift)

/-- The sanitisation exactly as claim C9 words it: lowercase the
extension-free basename and replace every whitespace character by an
underscore (no stripping). -/
def claim_sanitize (cs : List Char) : List Char :=
  cs.map (fun c => if python_whitespace c then '_' else Char.toLower c)

/-- The output path exactly as claim C9 words it:
`<output_dir>/<sanitized_video_basename>/(<x_shift>, <y_shift>).<image_ext>`. -/
def claim_save_path (output_folder video_source : List Char) (x_shift y_shift : ℤ) : List Char :=
  output_folder ++ '/' :: claim_sanitize (splitext_root (os_basename video_source)) ++ '/' :: bg_file_name x_shift y_shift

/-- The sanitisation as amended after the counterexample: strip leading
and trailing whitespace, lowercase, and replace space characters (only
U+0020, not all whitespace) by underscores. -/
def amended_sanitize (cs : List Char) : List Char :=
  ((py_strip cs).map Char.toLower).map (fun c => if c = ' ' then '_' else c)

/-! ## Helper lemmas -/

theorem npRound_bounds (q : ℚ) : ⌊q⌋ ≤ npRound q ∧ npRound q ≤ ⌊q⌋ + 1 := by
  unfold npRound
  split_ifs <;> omega

theorem npRound_mono {q q' : ℚ} (h : q ≤ q') : npRound q ≤ npRound q' := by
  rcases lt_or_eq_of_le (Int.floor_le_floor h) with hf | hf
  · have h1 := npRound_bounds q
    have h2 := npRound_bounds q'
    omega
  · unfold npRound
    rw [hf]
    have hr : q - ⌊q'⌋ ≤ q' - ⌊q'⌋ := by linarith
    split_ifs with h1 h2 h3 h4 h5 h6 h7 h8 <;> try omega
    all_goals (exfalso; linarith)

theorem npRound_intCast (k : ℤ) : npRound (k : ℚ) = k := by
  unfold npRound
  rw [Int.floor_intCast]
  norm_num

theorem npRound_nonneg {q : ℚ} (h : 0 ≤ q) : 0 ≤ npRound q := by
  have h2 := npRound_mono h
  rwa [show (0 : ℚ) = ((0 : ℤ) : ℚ) by norm_num, npRound_intCast] at h2

theorem npRound_le_of_le_int {q : ℚ} {k : ℤ} (h : q ≤ k) : npRound q ≤ k := by
  have h2 := npRound_mono h
  rwa [npRound_intCast] at h2

theorem npLinspace_length (a b : ℚ) (n : ℕ) : (npLinspace a b n).length = n := by
  unfold npLinspace
  split_ifs with h1 h2
  · simp [h1]
  · simp [h2]
  · rw [List.length_map, List.length_range]

theorem npLinspace_getD {a b : ℚ} {n : ℕ} (hn : 2 ≤ n) {i : ℕ} (hi : i < n) :
    (npLinspace a b n).getD i 0 = a + (i : ℚ) * (b - a) / ((n - 1 : ℕ) : ℚ) := by
  unfold npLinspace
  rw [if_neg (by omega), if_neg (by omega)]
  rw [List.getD_eq_getElem _ _ (by rw [List.length_map, List.length_range]; exact hi)]
  simp only [List.getElem_map, List.getElem_range]

theorem npLinspace_mem {a b : ℚ} (hab : a ≤ b) {n : ℕ} {p : ℚ}
    (hp : p ∈ npLinspace a b n) : a ≤ p ∧ p ≤ b := by
  unfold npLinspace at hp
  split_ifs at hp with h1 h2
  · simp at hp
  · rw [List.mem_singleton] at hp
    rw [hp]
    exact ⟨le_rfl, hab⟩
  · rw [List.mem_map] at hp
    obtain ⟨i, hmem, hval⟩ := hp
    rw [List.mem_range] at hmem
    rw [← hval]
    have hd : (0 : ℚ) < ((n - 1 : ℕ) : ℚ) := by
      have h3 : (0 : ℕ) < n - 1 := by omega
      exact_mod_cast h3
    have hba : (0 : ℚ) ≤ b - a := by linarith
    have hnn : (0 : ℚ) ≤ (i : ℚ) * (b - a) / ((n - 1 : ℕ) : ℚ) :=
      div_nonneg (mul_nonneg (Nat.cast_nonneg i) hba) (le_of_lt hd)
    have hile : (i : ℚ) ≤ ((n - 1 : ℕ) : ℚ) := Nat.cast_le.mpr (by omega)
    have hup : (i : ℚ) * (b - a) / ((n - 1 : ℕ) : ℚ) ≤ b - a := by
      rw [div_le_iff₀ hd]
      calc (i : ℚ) * (b - a) ≤ ((n - 1 : ℕ) : ℚ) * (b - a) :=
            mul_le_mul_of_nonneg_right hile hba
        _ = (b - a) * ((n - 1 : ℕ) : ℚ) := by ring
    constructor
    · linarith
    · linarith

theorem npLinspace_pairwise {a b : ℚ} (hab : a ≤ b) (n : ℕ) :
    List.Pairwise (· ≤ ·) (npLinspace a b n) := by
  unfold npLinspace
  split_ifs with h1 h2
  · exact List.Pairwise.nil
  · exact List.pairwise_singleton _ _
  · refine List.Pairwise.map _ ?_ (List.pairwise_lt_range n)
    intro i j hij
    have hd : (0 : ℚ) < ((n - 1 : ℕ) : ℚ) := by
      have h3 : (0 : ℕ) < n - 1 := by omega
      exact_mod_cast h3
    have hba : (0 : ℚ) ≤ b - a := by linarith
    have hij' : (i : ℚ) ≤ (j : ℚ) := Nat.cast_le.mpr (le_of_lt hij)
    have hstep : (i : ℚ) * (b - a) / ((n - 1 : ℕ) : ℚ) ≤ (j : ℚ) * (b - a) / ((n - 1 : ℕ) : ℚ) := by
      gcongr
    linarith

theorem timing_full_range (n : ℕ) (rand_duration rand_start : ℚ) :
    get_randomized_norm_sampling_indices 1 1 n rand_duration rand_start = npLinspace 0 1 n := by
  unfold get_randomized_norm_sampling_indices
  dsimp only
  norm_num

theorem medianOfList_bounds {xs : List ℕ} (hne : xs ≠ []) {bound : ℕ}
    (hb : ∀ v ∈ xs, v ≤ bound) :
    0 ≤ medianOfList xs ∧ medianOfList xs ≤ (bound : ℚ) := by
  unfold medianOfList
  dsimp only
  set s := List.insertionSort (· ≤ ·) xs with hs
  have hlen : s.length = xs.length := List.length_insertionSort _ _
  have hpos : 0 < s.length := by
    rw [hlen]
    exact List.length_pos.mpr hne
  have hmem : ∀ i, i < s.length → s.getD i 0 ≤ bound := by
    intro i hi
    rw [List.getD_eq_getElem _ _ hi]
    exact hb _ ((List.perm_insertionSort _ xs).mem_iff.mp (s.getElem_mem hi))
  have h1 : s.length / 2 < s.length := Nat.div_lt_self hpos (by norm_num)
  have h2 : s.length / 2 - 1 < s.length := by omega
  split_ifs with hodd
  · constructor
    · positivity
    · exact_mod_cast hmem _ h1
  · constructor
    · positivity
    · have ha := hmem _ h2
      have hb2 := hmem _ h1
      have ha' : ((s.getD (s.length / 2 - 1) 0 : ℕ) : ℚ) ≤ (bound : ℚ) := by exact_mod_cast ha
      have hb' : ((s.getD (s.length / 2) 0 : ℕ) : ℚ) ≤ (bound : ℚ) := by exact_mod_cast hb2
      linarith

theorem medianOfList_replicate_three (v : ℕ) :
    medianOfList (List.replicate 3 v) = (v : ℚ) := by
  unfold medianOfList
  have hsorted : List.Sorted (· ≤ ·) (List.replicate 3 v) :=
    List.pairwise_replicate.mpr (Or.inr le_rfl)
  rw [hsorted.insertionSort_eq]
  simp [List.getD]

/-! ## Claim theorems -/

/-- C2: for every sampler constructed with non-negative shifts bounded by
the video dimensions (randint draws ranging over their support
`[0, max_shift]`), the crop rectangle `(y1, y2, x1, x2)` satisfies
`y2 - y1 = video_height - max_y_shift`, `x2 - x1 = video_width -
max_x_shift`, `0 ≤ x1 ≤ max_x_shift`, `0 ≤ y1 ≤ max_y_shift`,
`x2 ≤ video_width` and `y2 ≤ video_height`, both for the randomized
configuration from construction and for the centered configuration
produced by `disable_random_shift`. -/
theorem crop_rect_invariants (w h mx my : ℤ) (dur : ℚ × ℚ) (n : ℕ)
    (rx ry : ℤ) (rd rs : ℚ)
    (hx0 : 0 ≤ mx) (hxw : mx ≤ w) (hy0 : 0 ≤ my) (hyh : my ≤ h)
    (hrx0 : 0 ≤ rx) (hrx1 : rx ≤ mx) (hry0 : 0 ≤ ry) (hry1 : ry ≤ my) :
    ((init_sampler (w, h) (mx, my) dur n rx ry rd rs).crop_y1y2x1x2.2.1 -
       (init_sampler (w, h) (mx, my) dur n rx ry rd rs).crop_y1y2x1x2.1 = h - my ∧
     (init_sampler (w, h) (mx, my) dur n rx ry rd rs).crop_y1y2x1x2.2.2.2 -
       (init_sampler (w, h) (mx, my) dur n rx ry rd rs).crop_y1y2x1x2.2.2.1 = w - mx ∧
     0 ≤ (init_sampler (w, h) (mx, my) dur n rx ry rd rs).crop_y1y2x1x2.2.2.1 ∧
     (init_sampler (w, h) (mx, my) dur n rx ry rd rs).crop_y1y2x1x2.2.2.1 ≤ mx ∧
     0 ≤ (init_sampler (w, h) (mx, my) dur n rx ry rd rs).crop_y1y2x1x2.1 ∧
     (init_sampler (w, h) (mx, my) dur n rx ry rd rs).crop_y1y2x1x2.1 ≤ my ∧
     (init_sampler (w, h) (mx, my) dur n rx ry rd rs).crop_y1y2x1x2.2.2.2 ≤ w ∧
     (init_sampler (w, h) (mx, my) dur n rx ry rd rs).crop_y1y2x1x2.2.1 ≤ h) ∧
    ((disable_random_shift (init_sampler (w, h) (mx, my) dur n rx ry rd rs)).crop_y1y2x1x2.2.1 -
       (disable_random_shift (init_sampler (w, h) (mx, my) dur n rx ry rd rs)).crop_y1y2x1x2.1 = h - my ∧
     (disable_random_shift (init_sampler (w, h) (mx, my) dur n rx ry rd rs)).crop_y1y2x1x2.2.2.2 -
       (disable_random_shift (init_sampler (w, h) (mx, my) dur n rx ry rd rs)).crop_y1y2x1x2.2.2.1 = w - mx ∧
     0 ≤ (disable_random_shift (init_sampler (w, h) (mx, my) dur n rx ry rd rs)).crop_y1y2x1x2.2.2.1 ∧
     (disable_random_shift (init_sampler (w, h) (mx, my) dur n rx ry rd rs)).crop_y1y2x1x2.2.2.1 ≤ mx ∧
     0 ≤ (disable_random_shift (init_sampler (w, h) (mx, my) dur n rx ry rd rs)).crop_y1y2x1x2.1 ∧
     (disable_random_shift (init_sampler (w, h) (mx, my) dur n rx ry rd rs)).crop_y1y2x1x2.1 ≤ my ∧
     (disable_random_shift (init_sampler (w, h) (mx, my) dur n rx ry rd rs)).crop_y1y2x1x2.2.2.2 ≤ w ∧
     (disable_random_shift (init_sampler (w, h) (mx, my) dur n rx ry rd rs)).crop_y1y2x1x2.2.1 ≤ h) := by
  dsimp only [init_sampler, disable_random_shift, get_randomized_crop_coords]
  omega

/-- C2 witness: the spec's scenario `video_wh = (640, 480)`,
`max_shift_xy = (100, 100)`, randint draws `(30, 70)`. -/
theorem crop_rect_invariants_witness :
    (0 : ℤ) ≤ 100 ∧ (100 : ℤ) ≤ 640 ∧ (100 : ℤ) ≤ 480 ∧ (0 : ℤ) ≤ 30 ∧
    (30 : ℤ) ≤ 100 ∧ (0 : ℤ) ≤ 70 ∧ (70 : ℤ) ≤ 100 ∧
    (((init_sampler (640, 480) (100, 100) (1/4, 1) 5 30 70 0 0).crop_y1y2x1x2.2.1 -
        (init_sampler (640, 480) (100, 100) (1/4, 1) 5 30 70 0 0).crop_y1y2x1x2.1 = 480 - 100 ∧
      (init_sampler (640, 480) (100, 100) (1/4, 1) 5 30 70 0 0).crop_y1y2x1x2.2.2.2 -
        (init_sampler (640, 480) (100, 100) (1/4, 1) 5 30 70 0 0).crop_y1y2x1x2.2.2.1 = 640 - 100 ∧
      0 ≤ (init_sampler (640, 480) (100, 100) (1/4, 1) 5 30 70 0 0).crop_y1y2x1x2.2.2.1 ∧
      (init_sampler (640, 480) (100, 100) (1/4, 1) 5 30 70 0 0).crop_y1y2x1x2.2.2.1 ≤ 100 ∧
      0 ≤ (init_sampler (640, 480) (100, 100) (1/4, 1) 5 30 70 0 0).crop_y1y2x1x2.1 ∧
      (init_sampler (640, 480) (100, 100) (1/4, 1) 5 30 70 0 0).crop_y1y2x1x2.1 ≤ 100 ∧
      (init_sampler (640, 480) (100, 100) (1/4, 1) 5 30 70 0 0).crop_y1y2x1x2.2.2.2 ≤ 640 ∧
      (init_sampler (640, 480) (100, 100) (1/4, 1) 5 30 70 0 0).crop_y1y2x1x2.2.1 ≤ 480) ∧
     ((disable_random_shift (init_sampler (640, 480) (100, 100) (1/4, 1) 5 30 70 0 0)).crop_y1y2x1x2.2.1 -
        (disable_random_shift (init_sampler (640, 480) (100, 100) (1/4, 1) 5 30 70 0 0)).crop_y1y2x1x2.1 = 480 - 100 ∧
      (disable_random_shift (init_sampler (640, 480) (100, 100) (1/4, 1) 5 30 70 0 0)).crop_y1y2x1x2.2.2.2 -
        (disable_random_shift (init_sampler (640, 480) (100, 100) (1/4, 1) 5 30 70 0 0)).crop_y1y2x1x2.2.2.1 = 640 - 100 ∧
      0 ≤ (disable_random_shift (init_sampler (640, 480) (100, 100) (1/4, 1) 5 30 70 0 0)).crop_y1y2x1x2.2.2.1 ∧
      (disable_random_shift (init_sampler (640, 480) (100, 100) (1/4, 1) 5 30 70 0 0)).crop_y1y2x1x2.2.2.1 ≤ 100 ∧
      0 ≤ (disable_random_shift (init_sampler (640, 480) (100, 100) (1/4, 1) 5 30 70 0 0)).crop_y1y2x1x2.1 ∧
      (disable_random_shift (init_sampler (640, 480) (100, 100) (1/4, 1) 5 30 70 0 0)).crop_y1y2x1x2.1 ≤ 100 ∧
      (disable_random_shift (init_sampler (640, 480) (100, 100) (1/4, 1) 5 30 70 0 0)).crop_y1y2x1x2.2.2.2 ≤ 640 ∧
      (disable_random_shift (init_sampler (640, 480) (100, 100) (1/4, 1) 5 30 70 0 0)).crop_y1y2x1x2.2.1 ≤ 480)) :=
  ⟨by decide, by decide, by decide, by decide, by decide, by decide, by decide,
   crop_rect_invariants 640 480 100 100 (1/4, 1) 5 30 70 0 0
     (by decide) (by decide) (by decide) (by decide)
     (by decide) (by decide) (by decide) (by decide)⟩

/-- C6: `disable_random_shift` is idempotent and deterministically centers
the crop: the new top-left corner is `(floor(max_x_shift / 2),
floor(max_y_shift / 2))`, the crop width and height are unchanged from
construction, and `get_xy_shift` afterwards reports `(0, 0)`. -/
theorem disable_random_shift_centers (w h mx my : ℤ) (dur : ℚ × ℚ) (n : ℕ)
    (rx ry : ℤ) (rd rs : ℚ) (hx0 : 0 ≤ mx) (hy0 : 0 ≤ my) :
    disable_random_shift (disable_random_shift (init_sampler (w, h) (mx, my) dur n rx ry rd rs)) =
      disable_random_shift (init_sampler (w, h) (mx, my) dur n rx ry rd rs) ∧
    (get_xy_shift (disable_random_shift (init_sampler (w, h) (mx, my) dur n rx ry rd rs))).1 = (0, 0) ∧
    (disable_random_shift (init_sampler (w, h) (mx, my) dur n rx ry rd rs)).crop_y1y2x1x2.2.2.1 = ⌊(mx : ℚ) / 2⌋ ∧
    (disable_random_shift (init_sampler (w, h) (mx, my) dur n rx ry rd rs)).crop_y1y2x1x2.1 = ⌊(my : ℚ) / 2⌋ ∧
    (disable_random_shift (init_sampler (w, h) (mx, my) dur n rx ry rd rs)).crop_y1y2x1x2.2.2.2 -
      (disable_random_shift (init_sampler (w, h) (mx, my) dur n rx ry rd rs)).crop_y1y2x1x2.2.2.1 =
      (init_sampler (w, h) (mx, my) dur n rx ry rd rs).crop_y1y2x1x2.2.2.2 -
        (init_sampler (w, h) (mx, my) dur n rx ry rd rs).crop_y1y2x1x2.2.2.1 ∧
    (disable_random_shift (init_sampler (w, h) (mx, my) dur n rx ry rd rs)).crop_y1y2x1x2.2.1 -
      (disable_random_shift (init_sampler (w, h) (mx, my) dur n rx ry rd rs)).crop_y1y2x1x2.1 =
      (init_sampler (w, h) (mx, my) dur n rx ry rd rs).crop_y1y2x1x2.2.1 -
        (init_sampler (w, h) (mx, my) dur n rx ry rd rs).crop_y1y2x1x2.1 := by
  have hfx : ⌊(mx : ℚ) / 2⌋ = mx / 2 := by
    rw [show (2 : ℚ) = ((2 : ℕ) : ℚ) by norm_num, Rat.floor_intCast_div_natCast]
    norm_num
  have hfy : ⌊(my : ℚ) / 2⌋ = my / 2 := by
    rw [show (2 : ℚ) = ((2 : ℕ) : ℚ) by norm_num, Rat.floor_intCast_div_natCast]
    norm_num
  refine ⟨rfl, ?_, ?_, ?_, ?_, ?_⟩
  · dsimp only [get_xy_shift, disable_random_shift, init_sampler]
    rw [Prod.mk.injEq]
    omega
  · rw [hfx]
    rfl
  · rw [hfy]
    rfl
  · dsimp only [disable_random_shift, init_sampler, get_randomized_crop_coords]
    omega
  · dsimp only [disable_random_shift, init_sampler, get_randomized_crop_coords]
    omega

/-- C6 witness: shifts `(100, 100)` on a `640 × 480` video. -/
theorem disable_random_shift_centers_witness :
    (0 : ℤ) ≤ 100 ∧
    (disable_random_shift (disable_random_shift (init_sampler (640, 480) (100, 100) (1/4, 1) 5 30 70 0 0)) =
      disable_random_shift (init_sampler (640, 480) (100, 100) (1/4, 1) 5 30 70 0 0) ∧
     (get_xy_shift (disable_random_shift (init_sampler (640, 480) (100, 100) (1/4, 1) 5 30 70 0 0))).1 = (0, 0) ∧
     (disable_random_shift (init_sampler (640, 480) (100, 100) (1/4, 1) 5 30 70 0 0)).crop_y1y2x1x2.2.2.1 = ⌊((100 : ℤ) : ℚ) / 2⌋ ∧
     (disable_random_shift (init_sampler (640, 480) (100, 100) (1/4, 1) 5 30 70 0 0)).crop_y1y2x1x2.1 = ⌊((100 : ℤ) : ℚ) / 2⌋ ∧
     (disable_random_shift (init_sampler (640, 480) (100, 100) (1/4, 1) 5 30 70 0 0)).crop_y1y2x1x2.2.2.2 -
       (disable_random_shift (init_sampler (640, 480) (100, 100) (1/4, 1) 5 30 70 0 0)).crop_y1y2x1x2.2.2.1 =
       (init_sampler (640, 480) (100, 100) (1/4, 1) 5 30 70 0 0).crop_y1y2x1x2.2.2.2 -
         (init_sampler (640, 480) (100, 100) (1/4, 1) 5 30 70 0 0).crop_y1y2x1x2.2.2.1 ∧
     (disable_random_shift (init_sampler (640, 480) (100, 100) (1/4, 1) 5 30 70 0 0)).crop_y1y2x1x2.2.1 -
       (disable_random_shift (init_sampler (640, 480) (100, 100) (1/4, 1) 5 30 70 0 0)).crop_y1y2x1x2.1 =
       (init_sampler (640, 480) (100, 100) (1/4, 1) 5 30 70 0 0).crop_y1y2x1x2.2.1 -
         (init_sampler (640, 480) (100, 100) (1/4, 1) 5 30 70 0 0).crop_y1y2x1x2.1) :=
  ⟨by decide,
   disable_random_shift_centers 640 480 100 100 (1/4, 1) 5 30 70 0 0 (by decide) (by decide)⟩

/-- C8: the sampler's state is left untouched by the three query
operations (`crop`, `get_xy_shift`, `get_frame_indices`), and each of the
two disable mutators overwrites only its own derived field:
`disable_random_shift` only the crop rectangle, `disable_random_sample_timing`
only the duration bounds and the position sequence. -/
theorem sampler_mutation_frame (s : Randomized_Frame_Sampler) (f : Frame)
    (T : ℤ) (rd rs : ℚ) :
    (crop s f).2 = s ∧
    (get_xy_shift s).2 = s ∧
    (get_frame_indices s T).2 = s ∧
    (disable_random_shift s).video_width = s.video_width ∧
    (disable_random_shift s).video_height = s.video_height ∧
    (disable_random_shift s).max_x_shift = s.max_x_shift ∧
    (disable_random_shift s).max_y_shift = s.max_y_shift ∧
    (disable_random_shift s).min_duration = s.min_duration ∧
    (disable_random_shift s).max_duration = s.max_duration ∧
    (disable_random_shift s).num_samples = s.num_samples ∧
    (disable_random_shift s).norm_sample_idxs = s.norm_sample_idxs ∧
    (disable_random_sample_timing s rd rs).video_width = s.video_width ∧
    (disable_random_sample_timing s rd rs).video_height = s.video_height ∧
    (disable_random_sample_timing s rd rs).max_x_shift = s.max_x_shift ∧
    (disable_random_sample_timing s rd rs).max_y_shift = s.max_y_shift ∧
    (disable_random_sample_timing s rd rs).num_samples = s.num_samples ∧
    (disable_random_sample_timing s rd rs).crop_y1y2x1x2 = s.crop_y1y2x1x2 :=
  ⟨rfl, rfl, rfl, rfl, rfl, rfl, rfl, rfl, rfl, rfl, rfl, rfl, rfl, rfl, rfl, rfl, rfl⟩

/-- C5: `disable_random_sample_timing` is idempotent; afterwards both
duration bounds are 1.0 and the position sequence is exactly
`num_samples` evenly spaced points with the i-th equal to
`i / (num_samples - 1)`, so that for `num_samples ≥ 2` the first position
is 0 and the last is 1. -/
theorem disable_timing_idempotent_full_range (s : Randomized_Frame_Sampler)
    (rd rs rd' rs' : ℚ) :
    disable_random_sample_timing (disable_random_sample_timing s rd rs) rd' rs' =
      disable_random_sample_timing s rd rs ∧
    (disable_random_sample_timing s rd rs).min_duration = 1 ∧
    (disable_random_sample_timing s rd rs).max_duration = 1 ∧
    (disable_random_sample_timing s rd rs).norm_sample_idxs.length = s.num_samples ∧
    (2 ≤ s.num_samples →
      ∀ i : ℕ, i < s.num_samples →
        (disable_random_sample_timing s rd rs).norm_sample_idxs.getD i 0 =
          (i : ℚ) / ((s.num_samples - 1 : ℕ) : ℚ)) ∧
    (2 ≤ s.num_samples →
      (disable_random_sample_timing s rd rs).norm_sample_idxs.getD 0 0 = 0 ∧
      (disable_random_sample_timing s rd rs).norm_sample_idxs.getD (s.num_samples - 1) 0 = 1) := by
  have hnonzero : ∀ m : ℕ, 2 ≤ m → (((m - 1 : ℕ) : ℚ)) ≠ 0 := by
    intro m hm
    have : (0 : ℕ) < m - 1 := by omega
    positivity
  refine ⟨?_, rfl, rfl, ?_, ?_, ?_⟩
  · simp only [disable_random_sample_timing, timing_full_range]
  · simp only [disable_random_sample_timing, timing_full_range, npLinspace_length]
  · intro h2 i hi
    simp only [disable_random_sample_timing, timing_full_range]
    rw [npLinspace_getD h2 hi]
    ring
  · intro h2
    constructor
    · simp only [disable_random_sample_timing, timing_full_range]
      rw [npLinspace_getD h2 (by omega)]
      norm_num
    · simp only [disable_random_sample_timing, timing_full_range]
      rw [npLinspace_getD h2 (by omega)]
      have hnz := hnonzero _ h2
      field_simp
      have h1n : ((s.num_samples : ℚ) - 1) ≠ 0 := by
        rw [← Nat.cast_one, ← Nat.cast_sub (by omega)]
        exact hnz
      exact div_self h1n

/-- C5 witness: a concrete sampler with `num_samples = 5` and fresh random
draws `(1/2, 1/3)` for the second call. -/
theorem disable_timing_idempotent_full_range_witness :
    2 ≤ (init_sampler (4, 3) (1, 1) (1/4, 1) 5 0 0 0 0).num_samples ∧
    disable_random_sample_timing (disable_random_sample_timing (init_sampler (4, 3) (1, 1) (1/4, 1) 5 0 0 0 0) 0 0) (1/2) (1/3) =
      disable_random_sample_timing (init_sampler (4, 3) (1, 1) (1/4, 1) 5 0 0 0 0) 0 0 ∧
    (disable_random_sample_timing (init_sampler (4, 3) (1, 1) (1/4, 1) 5 0 0 0 0) 0 0).min_duration = 1 ∧
    (disable_random_sample_timing (init_sampler (4, 3) (1, 1) (1/4, 1) 5 0 0 0 0) 0 0).max_duration = 1 ∧
    (disable_random_sample_timing (init_sampler (4, 3) (1, 1) (1/4, 1) 5 0 0 0 0) 0 0).norm_sample_idxs.getD 2 0 =
      ((2 : ℕ) : ℚ) / (((5 - 1 : ℕ)) : ℚ) ∧
    (disable_random_sample_timing (init_sampler (4, 3) (1, 1) (1/4, 1) 5 0 0 0 0) 0 0).norm_sample_idxs.getD 0 0 = 0 ∧
    (disable_random_sample_timing (init_sampler (4, 3) (1, 1) (1/4, 1) 5 0 0 0 0) 0 0).norm_sample_idxs.getD 4 0 = 1 :=
  ⟨by decide,
   (disable_timing_idempotent_full_range _ 0 0 (1/2) (1/3)).1,
   (disable_timing_idempotent_full_range _ 0 0 (1/2) (1/3)).2.1,
   (disable_timing_idempotent_full_range _ 0 0 (1/2) (1/3)).2.2.1,
   (disable_timing_idempotent_full_range _ 0 0 (1/2) (1/3)).2.2.2.2.1 (by decide) 2 (by decide),
   ((disable_timing_idempotent_full_range _ 0 0 (1/2) (1/3)).2.2.2.2.2 (by decide)).1,
   ((disable_timing_idempotent_full_range _ 0 0 (1/2) (1/3)).2.2.2.2.2 (by decide)).2⟩

/-- C10: with `num_samples = 1` the generated position sequence is the
single value `earliest_norm_sample` — the start of the randomized sampling
window, not its midpoint; after `disable_random_sample_timing` the single
position is exactly 0, so `get_frame_indices` returns `[0]` for every
total frame count `T ≥ 1`. -/
theorem single_sample_at_window_start (w h mx my : ℤ) (da db : ℚ)
    (rx ry : ℤ) (rd rs rd' rs' : ℚ) (T : ℤ) (hT : 1 ≤ T) :
    (init_sampler (w, h) (mx, my) (da, db) 1 rx ry rd rs).norm_sample_idxs =
      [(1 - (min da db + (max da db - min da db) * rd)) * rs] ∧
    (disable_random_sample_timing (init_sampler (w, h) (mx, my) (da, db) 1 rx ry rd rs) rd' rs').norm_sample_idxs = [0] ∧
    (get_frame_indices (disable_random_sample_timing (init_sampler (w, h) (mx, my) (da, db) 1 rx ry rd rs) rd' rs') T).1 = [0] := by
  refine ⟨?_, ?_, ?_⟩
  · simp [init_sampler, get_randomized_norm_sampling_indices, npLinspace]
  · simp only [disable_random_sample_timing, timing_full_range]
    simp [init_sampler, npLinspace]
  · simp only [get_frame_indices, disable_random_sample_timing, timing_full_range]
    simp only [init_sampler, npLinspace]
    norm_num [npRound]

/-- C10 witness: concrete duration bounds `(1/4, 1)`, draws `(1/2, 1/3)`,
total frame count `T = 101`. -/
theorem single_sample_at_window_start_witness :
    (1 : ℤ) ≤ 101 ∧
    ((init_sampler (4, 3) (1, 1) (1/4, 1) 1 0 0 (1/2) (1/3)).norm_sample_idxs =
       [(1 - (min (1/4 : ℚ) 1 + (max (1/4 : ℚ) 1 - min (1/4 : ℚ) 1) * (1/2))) * (1/3)] ∧
     (disable_random_sample_timing (init_sampler (4, 3) (1, 1) (1/4, 1) 1 0 0 (1/2) (1/3)) 0 0).norm_sample_idxs = [0] ∧
     (get_frame_indices (disable_random_sample_timing (init_sampler (4, 3) (1, 1) (1/4, 1) 1 0 0 (1/2) (1/3)) 0 0) 101).1 = [0]) :=
  ⟨by decide,
   single_sample_at_window_start 4 3 1 1 (1/4) 1 0 0 (1/2) (1/3) 0 0 101 (by decide)⟩

/-- C3: `get_frame_indices` returns one integer per stored position, in
the same order, the i-th being `npRound((T - 1) * p_i)` (numpy round, half
to even); with positions `[0, 1/2, 1]` (full-duration sampler, 3 samples)
and `T = 101` it returns `[0, 50, 100]`; duplicates are possible, e.g. a
zero-duration sampler yields `[1, 1, 1]` at `T = 3`. -/
theorem get_frame_indices_rounds (s : Randomized_Frame_Sampler) (T : ℤ) :
    ((get_frame_indices s T).1.length = s.norm_sample_idxs.length ∧
     ∀ i : ℕ, i < s.norm_sample_idxs.length →
       (get_frame_indices s T).1.getD i 0 =
         npRound (((T - 1 : ℤ) : ℚ) * s.norm_sample_idxs.getD i 0)) ∧
    (get_frame_indices (init_sampler (640, 480) (100, 100) (1, 1) 3 30 70 0 0) 101).1 = [0, 50, 100] ∧
    (get_frame_indices (init_sampler (640, 480) (100, 100) (0, 0) 3 30 70 0 (1/2)) 3).1 = [1, 1, 1] := by
  refine ⟨⟨?_, ?_⟩, ?_, ?_⟩
  · simp [get_frame_indices]
  · intro i hi
    simp only [get_frame_indices]
    rw [List.getD_eq_getElem _ _ (by rw [List.length_map]; exact hi),
        List.getD_eq_getElem _ _ hi, List.getElem_map]
  · simp [get_frame_indices, init_sampler, get_randomized_norm_sampling_indices,
          npLinspace, List.range_succ]
    norm_num [npRound]
  · simp [get_frame_indices, init_sampler, get_randomized_norm_sampling_indices,
          npLinspace, List.range_succ]
    norm_num [npRound]

/-- C3 witness: index lookup at `i = 1` for the full-duration sampler and
`T = 101`. -/
theorem get_frame_indices_rounds_witness :
    (1 : ℕ) < (init_sampler (640, 480) (100, 100) (1, 1) 3 30 70 0 0).norm_sample_idxs.length ∧
    (get_frame_indices (init_sampler (640, 480) (100, 100) (1, 1) 3 30 70 0 0) 101).1.getD 1 0 =
      npRound (((101 - 1 : ℤ) : ℚ) *
        (init_sampler (640, 480) (100, 100) (1, 1) 3 30 70 0 0).norm_sample_idxs.getD 1 0) ∧
    (get_frame_indices (init_sampler (640, 480) (100, 100) (1, 1) 3 30 70 0 0) 101).1 = [0, 50, 100] :=
  ⟨by simp [init_sampler, get_randomized_norm_sampling_indices, npLinspace_length],
   (get_frame_indices_rounds (init_sampler (640, 480) (100, 100) (1, 1) 3 30 70 0 0) 101).1.2 1
     (by simp [init_sampler, get_randomized_norm_sampling_indices, npLinspace_length]),
   (get_frame_indices_rounds (init_sampler (640, 480) (100, 100) (1, 1) 3 30 70 0 0) 101).2.1⟩

/-- Helper for C4: for duration bounds already sorted into `[0, 1]` and
random draws in `[0, 1]`, every generated position lies in `[0, 1]` and
the sequence is non-decreasing. -/
theorem gRNSI_range_and_sorted {md xd rd rs : ℚ}
    (hmd0 : 0 ≤ md) (hxd1 : xd ≤ 1) (hmdxd : md ≤ xd)
    (hrd0 : 0 ≤ rd) (hrd1 : rd ≤ 1) (hrs0 : 0 ≤ rs) (hrs1 : rs ≤ 1) (n : ℕ) :
    (∀ p ∈ get_randomized_norm_sampling_indices md xd n rd rs, 0 ≤ p ∧ p ≤ 1) ∧
    List.Pairwise (· ≤ ·) (get_randomized_norm_sampling_indices md xd n rd rs) := by
  unfold get_randomized_norm_sampling_indices
  dsimp only
  have hd0 : 0 ≤ md + (xd - md) * rd := by
    have : 0 ≤ (xd - md) * rd := mul_nonneg (by linarith) hrd0
    linarith
  have hd1 : md + (xd - md) * rd ≤ xd := by
    have h1 : (xd - md) * rd ≤ (xd - md) * 1 := mul_le_mul_of_nonneg_left hrd1 (by linarith)
    linarith
  have he0 : 0 ≤ (1 - (md + (xd - md) * rd)) * rs :=
    mul_nonneg (by linarith) hrs0
  have he1 : (1 - (md + (xd - md) * rd)) * rs ≤ 1 - (md + (xd - md) * rd) := by
    have h1 : (1 - (md + (xd - md) * rd)) * rs ≤ (1 - (md + (xd - md) * rd)) * 1 :=
      mul_le_mul_of_nonneg_left hrs1 (by linarith)
    linarith
  have hab : (1 - (md + (xd - md) * rd)) * rs ≤
      (1 - (md + (xd - md) * rd)) * rs + (md + (xd - md) * rd) := by linarith
  constructor
  · intro p hp
    have h := npLinspace_mem hab hp
    constructor
    · linarith [h.1]
    · linarith [h.2]
  · exact npLinspace_pairwise hab n

/-- C4: for duration bounds in `[0, 1]`, `num_samples ≥ 1` and random
draws in their support `[0, 1)`, every generated normalized position lies
in `[0, 1]` and the sequence is non-decreasing; consequently for every
`T ≥ 1` the frame indices are non-decreasing and lie in `[0, T - 1]`. -/
theorem norm_positions_and_indices_in_range (w h mx my : ℤ) (da db : ℚ)
    (n : ℕ) (rx ry : ℤ) (rd rs : ℚ)
    (hda0 : 0 ≤ da) (hda1 : da ≤ 1) (hdb0 : 0 ≤ db) (hdb1 : db ≤ 1)
    (hn : 1 ≤ n)
    (hrd0 : 0 ≤ rd) (hrd1 : rd < 1) (hrs0 : 0 ≤ rs) (hrs1 : rs < 1) :
    (∀ p ∈ (init_sampler (w, h) (mx, my) (da, db) n rx ry rd rs).norm_sample_idxs,
       0 ≤ p ∧ p ≤ 1) ∧
    List.Pairwise (· ≤ ·) (init_sampler (w, h) (mx, my) (da, db) n rx ry rd rs).norm_sample_idxs ∧
    ∀ T : ℤ, 1 ≤ T →
      List.Pairwise (· ≤ ·) (get_frame_indices (init_sampler (w, h) (mx, my) (da, db) n rx ry rd rs) T).1 ∧
      ∀ k ∈ (get_frame_indices (init_sampler (w, h) (mx, my) (da, db) n rx ry rd rs) T).1,
        0 ≤ k ∧ k ≤ T - 1 := by
  have hkey := gRNSI_range_and_sorted
    (le_min hda0 hdb0) (max_le hda1 hdb1) (min_le_max)
    hrd0 (le_of_lt hrd1) hrs0 (le_of_lt hrs1) n
  have hpos : (init_sampler (w, h) (mx, my) (da, db) n rx ry rd rs).norm_sample_idxs =
      get_randomized_norm_sampling_indices (min da db) (max da db) n rd rs := rfl
  refine ⟨?_, ?_, ?_⟩
  · rw [hpos]
    exact hkey.1
  · rw [hpos]
    exact hkey.2
  · intro T hT
    have hT1 : (0 : ℚ) ≤ ((T - 1 : ℤ) : ℚ) := by
      have : (0 : ℤ) ≤ T - 1 := by omega
      exact_mod_cast this
    constructor
    · simp only [get_frame_indices]
      refine List.Pairwise.map _ ?_ (hpos ▸ hkey.2)
      intro p q hpq
      exact npRound_mono (mul_le_mul_of_nonneg_left hpq hT1)
    · intro k hk
      simp only [get_frame_indices] at hk
      rw [List.mem_map] at hk
      obtain ⟨p, hpmem, rfl⟩ := hk
      have hp := hkey.1 p (hpos ▸ hpmem)
      constructor
      · exact npRound_nonneg (mul_nonneg hT1 hp.1)
      · have hle : ((T - 1 : ℤ) : ℚ) * p ≤ ((T - 1 : ℤ) : ℚ) := by
          have h1 : ((T - 1 : ℤ) : ℚ) * p ≤ ((T - 1 : ℤ) : ℚ) * 1 :=
            mul_le_mul_of_nonneg_left hp.2 hT1
          linarith
        exact npRound_le_of_le_int hle

/-- C4 witness: the spec's scenario configuration with concrete draws. -/
theorem norm_positions_and_indices_in_range_witness :
    (0 : ℚ) ≤ 1/4 ∧ (1/4 : ℚ) ≤ 1 ∧ (1 : ℕ) ≤ 5 ∧ (0 : ℚ) ≤ 1/2 ∧ (1/2 : ℚ) < 1 ∧
    ((∀ p ∈ (init_sampler (640, 480) (100, 100) (1/4, 1) 5 30 70 (1/2) (1/3)).norm_sample_idxs,
        0 ≤ p ∧ p ≤ 1) ∧
     List.Pairwise (· ≤ ·) (init_sampler (640, 480) (100, 100) (1/4, 1) 5 30 70 (1/2) (1/3)).norm_sample_idxs ∧
     ∀ T : ℤ, 1 ≤ T →
       List.Pairwise (· ≤ ·) (get_frame_indices (init_sampler (640, 480) (100, 100) (1/4, 1) 5 30 70 (1/2) (1/3)) T).1 ∧
       ∀ k ∈ (get_frame_indices (init_sampler (640, 480) (100, 100) (1/4, 1) 5 30 70 (1/2) (1/3)) T).1,
         0 ≤ k ∧ k ≤ T - 1) :=
  ⟨by norm_num, by norm_num, by norm_num, by norm_num, by norm_num,
   norm_positions_and_indices_in_range 640 480 100 100 (1/4) 1 5 30 70 (1/2) (1/3)
     (by norm_num) (by norm_num) (by norm_num) (by norm_num) (by norm_num)
     (by norm_num) (by norm_num) (by norm_num) (by norm_num)⟩

/-- For integers already inside the pixel range the uint8 cast and the
clamp agree. -/
theorem toPixelU8_eq_clampPixel {z : ℤ} (h0 : 0 ≤ z) (h1 : z ≤ 255) :
    toPixelU8 z = clampPixel z := by
  unfold toPixelU8 clampPixel
  rw [Int.emod_eq_of_lt h0 (by omega)]
  omega

/-- uint8 cast of an in-range natural pixel value is the identity. -/
theorem toPixelU8_natCast {v : ℕ} (hv : v ≤ 255) : toPixelU8 ((v : ℕ) : ℤ) = v := by
  unfold toPixelU8
  omega

/-- `npRound` of a natural number is that number. -/
theorem npRound_natCast (m : ℕ) : npRound ((m : ℕ) : ℚ) = (m : ℤ) := by
  rw [show ((m : ℕ) : ℚ) = (((m : ℕ) : ℤ) : ℚ) by push_cast; ring, npRound_intCast]

/-- Every entry of a pixel column is bounded when every frame pixel is
(out-of-range accesses default to 0). -/
theorem pixel_column_le {frames : List Frame}
    (hb : ∀ f ∈ frames, ∀ row ∈ f, ∀ v ∈ row, v ≤ 255) (r c : ℕ) :
    ∀ v ∈ pixel_column frames r c, v ≤ 255 := by
  intro v hv
  unfold pixel_column at hv
  rw [List.mem_map] at hv
  obtain ⟨f, hf, rfl⟩ := hv
  by_cases hr : r < f.length
  · rw [List.getD_eq_getElem _ _ hr]
    by_cases hc : c < (f.get ⟨r, hr⟩).length
    · rw [List.getD_eq_getElem _ _ (by simpa using hc)]
      refine hb f hf _ (List.getElem_mem hr) _ ?_
      simpa using List.getElem_mem (by simpa using hc)
    · rw [List.getD_eq_default _ _ (by simpa using Nat.le_of_not_lt hc)]
      omega
  · rw [List.getD_eq_default _ _ (Nat.le_of_not_lt hr)]
    simp

/-- C7: under in-range input pixels the per-variant reduction
`np.uint8(np.round(np.median(...)))` equals the spec's element-wise
median-round-clamp; and the reduction of three identical solid-colour
frames is that same frame. -/
theorem median_reduction_is_clamped_median :
    (∀ (frames : List Frame), frames ≠ [] →
      (∀ f ∈ frames, ∀ row ∈ f, ∀ v ∈ row, v ≤ 255) →
      median_background frames = median_background_clamped frames) ∧
    (∀ (v rows cols : ℕ), v ≤ 255 →
      median_background (List.replicate 3 (List.replicate rows (List.replicate cols v))) =
        some (List.replicate rows (List.replicate cols v))) := by
  have hpix : ∀ (frames : List Frame), frames ≠ [] →
      (∀ f ∈ frames, ∀ row ∈ f, ∀ v ∈ row, v ≤ 255) → ∀ r c,
      0 ≤ npRound (medianOfList (pixel_column frames r c)) ∧
      npRound (medianOfList (pixel_column frames r c)) ≤ 255 := by
    intro frames hne hb r c
    have hcolne : pixel_column frames r c ≠ [] := by
      unfold pixel_column
      simpa using hne
    have hm := medianOfList_bounds hcolne (pixel_column_le hb r c)
    refine ⟨npRound_nonneg hm.1, npRound_le_of_le_int ?_⟩
    have h2 := hm.2
    norm_num at h2 ⊢
    exact h2
  constructor
  · intro frames hne hb
    match frames with
    | f0 :: rest =>
      simp only [median_background, median_background_clamped]
      congr 1
      apply List.map_congr_left
      intro r hr
      apply List.map_congr_left
      intro c hc
      exact toPixelU8_eq_clampPixel (hpix _ hne hb r c).1 (hpix _ hne hb r c).2
  · intro v rows cols hv
    have hf0 : ∀ r, r < rows →
        (List.replicate rows (List.replicate cols v)).getD r ([] : List ℕ) =
          List.replicate cols v := by
      intro r hr
      rw [List.getD_eq_getElem _ _ (by simpa using hr), List.getElem_replicate]
    have hcol : ∀ r c, r < rows → c < cols →
        pixel_column (List.replicate 3 (List.replicate rows (List.replicate cols v))) r c =
          List.replicate 3 v := by
      intro r c hr hc
      unfold pixel_column
      rw [List.map_replicate, hf0 r hr]
      rw [List.getD_eq_getElem _ _ (by simpa using hc), List.getElem_replicate]
    rw [show List.replicate 3 (List.replicate rows (List.replicate cols v)) =
          List.replicate rows (List.replicate cols v) ::
            List.replicate 2 (List.replicate rows (List.replicate cols v)) from rfl]
    simp only [median_background]
    rw [Option.some_inj]
    rw [List.eq_replicate_iff]
    constructor
    · rw [List.length_map, List.length_range, List.length_replicate]
    · intro b hb
      rw [List.mem_map] at hb
      obtain ⟨r, hrmem, rfl⟩ := hb
      rw [List.mem_range, List.length_replicate] at hrmem
      rw [List.eq_replicate_iff]
      constructor
      · rw [List.length_map, List.length_range, hf0 r hrmem, List.length_replicate]
      · intro b hb2
        rw [List.mem_map] at hb2
        obtain ⟨c, hcmem, rfl⟩ := hb2
        rw [List.mem_range, hf0 r hrmem, List.length_replicate] at hcmem
        rw [show List.replicate rows (List.replicate cols v) ::
              List.replicate 2 (List.replicate rows (List.replicate cols v)) =
              List.replicate 3 (List.replicate rows (List.replicate cols v)) from rfl]
        rw [hcol r c hrmem hcmem, medianOfList_replicate_three, npRound_natCast,
            toPixelU8_natCast hv]

/-- C7 witness: two concrete in-range frames for the refinement part, and
the solid-colour value 200 on a 2 by 3 frame for the scenario part. -/
theorem median_reduction_is_clamped_median_witness :
    ([[[10, 250], [0, 137]], [[20, 240], [5, 137]]] : List Frame) ≠ [] ∧
    (200 : ℕ) ≤ 255 ∧
    median_background [[[10, 250], [0, 137]], [[20, 240], [5, 137]]] =
      median_background_clamped [[[10, 250], [0, 137]], [[20, 240], [5, 137]]] ∧
    median_background (List.replicate 3 (List.replicate 2 (List.replicate 3 200))) =
      some (List.replicate 2 (List.replicate 3 200)) :=
  ⟨by decide, by decide,
   median_reduction_is_clamped_median.1 _ (by decide) (by decide),
   median_reduction_is_clamped_median.2 200 2 3 (by decide)⟩

/-- C1: concrete capture-loop behaviour of `random_backgrounds.py` for a
4 by 3 video, full-duration sampler with 3 samples and crop rectangle
`(0, 2, 1, 4)`, total frame count 5 (so frame indices `[0, 2, 4]`).
When every read fails the collected crop list is empty and the reduction
is numpy's undefined empty median (`none` in the model: NaN cast to uint8
in the script, appended with no error report). When only the read at
index 0 fails, the two remaining reads are cropped, kept in order, and
the output is exactly the median of those two cropped frames. -/
theorem capture_loop_failure_semantics :
    capture_cropped_samples (init_sampler (4, 3) (1, 1) (1, 1) 3 1 0 0 0) 5
      (fun _ => none) = [] ∧
    run_variant (init_sampler (4, 3) (1, 1) (1, 1) 3 1 0 0 0) 5
      (fun _ => none) = none ∧
    capture_cropped_samples (init_sampler (4, 3) (1, 1) (1, 1) 3 1 0 0 0) 5
      (fun i => if i = 0 then none
                else if i = 2 then some [[10, 20, 30, 40], [50, 60, 70, 80], [90, 100, 110, 120]]
                else some [[11, 21, 31, 41], [51, 61, 71, 81], [91, 101, 111, 121]]) =
      [[[20, 30, 40], [60, 70, 80]], [[21, 31, 41], [61, 71, 81]]] ∧
    run_variant (init_sampler (4, 3) (1, 1) (1, 1) 3 1 0 0 0) 5
      (fun i => if i = 0 then none
                else if i = 2 then some [[10, 20, 30, 40], [50, 60, 70, 80], [90, 100, 110, 120]]
                else some [[11, 21, 31, 41], [51, 61, 71, 81], [91, 101, 111, 121]]) =
      median_background [[[20, 30, 40], [60, 70, 80]], [[21, 31, 41], [61, 71, 81]]] := by
  have hidx : (get_frame_indices (init_sampler (4, 3) (1, 1) (1, 1) 3 1 0 0 0) 5).1 = [0, 2, 4] := by
    simp [get_frame_indices, init_sampler, get_randomized_norm_sampling_indices,
          npLinspace, List.range_succ]
    norm_num [npRound]
  have hcap : capture_cropped_samples (init_sampler (4, 3) (1, 1) (1, 1) 3 1 0 0 0) 5
      (fun i => if i = 0 then none
                else if i = 2 then some [[10, 20, 30, 40], [50, 60, 70, 80], [90, 100, 110, 120]]
                else some [[11, 21, 31, 41], [51, 61, 71, 81], [91, 101, 111, 121]]) =
      [[[20, 30, 40], [60, 70, 80]], [[21, 31, 41], [61, 71, 81]]] := by
    unfold capture_cropped_samples
    rw [hidx]
    simp [crop, init_sampler, get_randomized_crop_coords, pySlice]
  have hempty : capture_cropped_samples (init_sampler (4, 3) (1, 1) (1, 1) 3 1 0 0 0) 5
      (fun _ => none) = [] := by
    unfold capture_cropped_samples
    rw [hidx]
    simp
  refine ⟨hempty, ?_, hcap, ?_⟩
  · unfold run_variant
    rw [hempty]
    rfl
  · unfold run_variant
    rw [hcap]

/-- `os.path.join` appends with a separator when the left part is a
nonempty path not ending in `/` and the right part is relative. -/
theorem os_path_join_eq {a b : List Char} (ha0 : a ≠ [])
    (ha1 : a.getLast? ≠ some '/') (hb : b.getD 0 ' ' ≠ '/') :
    os_path_join a b = a ++ '/' :: b := by
  unfold os_path_join
  rw [if_neg hb, if_neg (not_or.mpr ⟨ha0, ha1⟩)]

/-- C9 counterexample: for the video file `clips/My⟨tab⟩Vid.mp4` the save
block produces `.../my⟨tab⟩vid/...` — `str.replace(" ", "_")` touches only
space characters, so the tab survives — while the claim's sanitisation
(replace every whitespace character by an underscore) gives
`.../my_vid/...`. -/
theorem save_path_claim_counterexample :
    save_path "/abs/results".toList "clips/My\tVid.mp4".toList 3 (-2) ≠
      claim_save_path "/abs/results".toList "clips/My\tVid.mp4".toList 3 (-2) := by
  decide

/-- C9 (amended): the persisted path is
`<output_folder>/<sanitized>/(<x_shift>, <y_shift>).png` where the
sanitised name is the video basename without extension, stripped of
leading/trailing whitespace, lowercased, with space characters (U+0020
only) replaced by underscores — under the side conditions that the output
folder is nonempty and does not end in `/` and the sanitised name is
nonempty and does not begin or end with `/` (the folder produced by
`os.path.abspath` and any basename of a real video file satisfy them). -/
theorem save_path_amended (out vs : List Char) (x y : ℤ)
    (hout0 : out ≠ []) (hout1 : out.getLast? ≠ some '/')
    (hn0 : amended_sanitize (splitext_root (os_basename vs)) ≠ [])
    (hn1 : (amended_sanitize (splitext_root (os_basename vs))).getD 0 ' ' ≠ '/')
    (hn2 : (amended_sanitize (splitext_root (os_basename vs))).getLast? ≠ some '/') :
    save_path out vs x y =
      out ++ '/' :: (amended_sanitize (splitext_root (os_basename vs)) ++ '/' :: bg_file_name x y) := by
  have hsan : sanitize_video_name (splitext_root (os_basename vs)) =
      amended_sanitize (splitext_root (os_basename vs)) := rfl
  have h1 : os_path_join out (amended_sanitize (splitext_root (os_basename vs))) =
      out ++ '/' :: amended_sanitize (splitext_root (os_basename vs)) :=
    os_path_join_eq hout0 hout1 hn1
  have hlast : (out ++ '/' :: amended_sanitize (splitext_root (os_basename vs))).getLast? =
      (amended_sanitize (splitext_root (os_basename vs))).getLast? := by
    rw [List.getLast?_append_of_ne_nil _ (by simp)]
    rw [show ('/' :: amended_sanitize (splitext_root (os_basename vs))) =
          ['/'] ++ amended_sanitize (splitext_root (os_basename vs)) from rfl,
        List.getLast?_append_of_ne_nil _ hn0]
  have h2 : os_path_join (out ++ '/' :: amended_sanitize (splitext_root (os_basename vs)))
      (bg_file_name x y) =
      (out ++ '/' :: amended_sanitize (splitext_root (os_basename vs))) ++ '/' :: bg_file_name x y :=
    os_path_join_eq (by simp) (by rw [hlast]; exact hn2) (by simp [bg_file_name])
  unfold save_path
  dsimp only
  rw [hsan, h1, h2, List.append_assoc]
  rfl

/-- C9 witness: output folder `/abs/results`, video `clips/My Video 1.mp4`,
shift label `(3, -2)`. -/
theorem save_path_amended_witness :
    "/abs/results".toList ≠ [] ∧
    amended_sanitize (splitext_root (os_basename "clips/My Video 1.mp4".toList)) ≠ [] ∧
    save_path "/abs/results".toList "clips/My Video 1.mp4".toList 3 (-2) =
      "/abs/results".toList ++ '/' ::
        (amended_sanitize (splitext_root (os_basename "clips/My Video 1.mp4".toList)) ++
          '/' :: bg_file_name 3 (-2)) :=
  ⟨by decide, by decide,
   save_path_amended "/abs/results".toList "clips/My Video 1.mp4".toList 3 (-2)
     (by decide) (by decide) (by decide) (by decide) (by decide)⟩
